import Mathlib

/-!
Shallow embedding of the simulation core of the breakout game
(`src/game/src/main.rs`).  Positions, velocities and sizes are 2D vectors of
rationals; the source computes with `f32`, which we model by exact rational
arithmetic.  Each Lean definition mirrors one function (or one contiguous
segment of a Bevy system) of the source; line numbers in the doc comments
refer to `src/game/src/main.rs`.
-/

namespace Breakout

/-- A 2D vector with rational components, modelling bevy `Vec2` (and the
`xy` projection of `Vec3` positions). -/
structure Vec2 where
  x : ℚ
  y : ℚ
deriving DecidableEq, Repr

/-- The collision side enum (lines 8-14). -/
inductive Collision where
  | Left
  | Right
  | Top
  | Bottom
deriving DecidableEq, Repr

/-- Window width constant (line 48). -/
def WINDOW_WIDTH : ℚ := 900

/-- Window height constant (line 49). -/
def WINDOW_HEIGHT : ℚ := 600

/-- Paddle extent constant (line 52). -/
def PADDLE_SIZE : Vec2 := ⟨120, 20⟩

/-- Ball extent constant (line 57). -/
def BALL_SIZE : Vec2 := ⟨20, 20⟩

/-- Base ball speed constant (line 58). -/
def BALL_SPEED : ℚ := 400

/-- Brick extent constant (line 61). -/
def BRICK_SIZE : Vec2 := ⟨75, 30⟩

/-- Laser extent constant (line 67). -/
def LASER_SIZE : Vec2 := ⟨5, 20⟩

/-- Laser speed constant (line 68). -/
def LASER_SPEED : ℚ := 600

/-- The side-selection chain of `collide` (lines 30-41): the minimum of the
four overlap depths, ties resolved by the fixed comparison order
Left, Right, Top, Bottom. -/
def pickSide (left right top bottom : ℚ) : Collision :=
  let m := min (min (min left right) top) bottom
  if m = left then Collision.Left
  else if m = right then Collision.Right
  else if m = top then Collision.Top
  else Collision.Bottom

/-- AABB collision test and minimum-penetration side resolution
(lines 16-45).  `a` is the moving object, `b` the obstacle; the reported
side is the side of `b` that `a` penetrates most shallowly. -/
def collide (aPos aSize bPos bSize : Vec2) : Option Collision :=
  let aMin : Vec2 := ⟨aPos.x - aSize.x / 2, aPos.y - aSize.y / 2⟩
  let aMax : Vec2 := ⟨aPos.x + aSize.x / 2, aPos.y + aSize.y / 2⟩
  let bMin : Vec2 := ⟨bPos.x - bSize.x / 2, bPos.y - bSize.y / 2⟩
  let bMax : Vec2 := ⟨bPos.x + bSize.x / 2, bPos.y + bSize.y / 2⟩
  if aMin.x < bMax.x ∧ aMax.x > bMin.x ∧ aMin.y < bMax.y ∧ aMax.y > bMin.y then
    some (pickSide (bMax.x - aMin.x) (aMax.x - bMin.x) (bMax.y - aMin.y) (aMax.y - bMin.y))
  else
    none

/-- Overlap (positive-area intersection) of the two rectangles, exactly the
guard condition of `collide` (line 23). -/
def rectsOverlap (aPos aSize bPos bSize : Vec2) : Prop :=
  aPos.x - aSize.x / 2 < bPos.x + bSize.x / 2 ∧
  aPos.x + aSize.x / 2 > bPos.x - bSize.x / 2 ∧
  aPos.y - aSize.y / 2 < bPos.y + bSize.y / 2 ∧
  aPos.y + aSize.y / 2 > bPos.y - bSize.y / 2

instance (aPos aSize bPos bSize : Vec2) : Decidable (rectsOverlap aPos aSize bPos bSize) := by
  unfold rectsOverlap
  infer_instance

/-- Directional overlap depth of side `c`, with the four depth formulas of
lines 25-28. -/
def overlapDepth (aPos aSize bPos bSize : Vec2) : Collision → ℚ
  | Collision.Left => (bPos.x + bSize.x / 2) - (aPos.x - aSize.x / 2)
  | Collision.Right => (aPos.x + aSize.x / 2) - (bPos.x - bSize.x / 2)
  | Collision.Top => (bPos.y + bSize.y / 2) - (aPos.y - aSize.y / 2)
  | Collision.Bottom => (aPos.y + aSize.y / 2) - (bPos.y - bSize.y / 2)

/-- Depth of a side among four given depth values. -/
def depth4 (left right top bottom : ℚ) : Collision → ℚ
  | Collision.Left => left
  | Collision.Right => right
  | Collision.Top => top
  | Collision.Bottom => bottom

/-- Position of a side in the fixed tie-breaking comparison order of
lines 33-40. -/
def sideIdx : Collision → Nat
  | Collision.Left => 0
  | Collision.Right => 1
  | Collision.Top => 2
  | Collision.Bottom => 3

theorem pickSide_depth_min (l r t b : ℚ) :
    (∀ c, depth4 l r t b (pickSide l r t b) ≤ depth4 l r t b c) ∧
    (∀ c, depth4 l r t b c = depth4 l r t b (pickSide l r t b) →
      sideIdx (pickSide l r t b) ≤ sideIdx c) := by
  have hl : min (min (min l r) t) b ≤ l :=
    le_trans (le_trans (min_le_left _ _) (min_le_left _ _)) (min_le_left _ _)
  have hr : min (min (min l r) t) b ≤ r :=
    le_trans (le_trans (min_le_left _ _) (min_le_left _ _)) (min_le_right _ _)
  have ht : min (min (min l r) t) b ≤ t :=
    le_trans (min_le_left _ _) (min_le_right _ _)
  have hb : min (min (min l r) t) b ≤ b := min_le_right _ _
  by_cases h1 : min (min (min l r) t) b = l
  · have hp : pickSide l r t b = Collision.Left := by
      simp only [pickSide]
      rw [if_pos h1]
    rw [hp]
    rw [h1] at hl hr ht hb
    refine ⟨fun c => ?_, fun c _ => ?_⟩
    · cases c <;> simpa [depth4] using by assumption
    · cases c <;> simp [sideIdx]
  · by_cases h2 : min (min (min l r) t) b = r
    · have hp : pickSide l r t b = Collision.Right := by
        simp only [pickSide]
        rw [if_neg h1, if_pos h2]
      rw [hp]
      rw [h2] at hl hr ht hb
      refine ⟨fun c => ?_, fun c hc => ?_⟩
      · cases c <;> simpa [depth4] using by assumption
      · cases c
        · simp only [depth4] at hc
          exact absurd (h2.trans hc.symm) h1
        · simp [sideIdx]
        · simp [sideIdx]
        · simp [sideIdx]
    · by_cases h3 : min (min (min l r) t) b = t
      · have hp : pickSide l r t b = Collision.Top := by
          simp only [pickSide]
          rw [if_neg h1, if_neg h2, if_pos h3]
        rw [hp]
        rw [h3] at hl hr ht hb
        refine ⟨fun c => ?_, fun c hc => ?_⟩
        · cases c <;> simpa [depth4] using by assumption
        · cases c
          · simp only [depth4] at hc
            exact absurd (h3.trans hc.symm) h1
          · simp only [depth4] at hc
            exact absurd (h3.trans hc.symm) h2
          · simp [sideIdx]
          · simp [sideIdx]
      · have h4 : min (min (min l r) t) b = b := by
          rcases min_choice (min (min l r) t) b with h | h
          · rcases min_choice (min l r) t with h' | h'
            · rcases min_choice l r with h'' | h''
              · exact absurd (by rw [h, h', h'']) h1
              · exact absurd (by rw [h, h', h'']) h2
            · exact absurd (by rw [h, h']) h3
          · exact h
        have hp : pickSide l r t b = Collision.Bottom := by
          simp only [pickSide]
          rw [if_neg h1, if_neg h2, if_neg h3]
        rw [hp]
        rw [h4] at hl hr ht hb
        refine ⟨fun c => ?_, fun c hc => ?_⟩
        · cases c <;> simpa [depth4] using by assumption
        · cases c
          · simp only [depth4] at hc
            exact absurd (h4.trans hc.symm) h1
          · simp only [depth4] at hc
            exact absurd (h4.trans hc.symm) h2
          · simp only [depth4] at hc
            exact absurd (h4.trans hc.symm) h3
          · simp [sideIdx]

/-- C4: for every pair of axis-aligned rectangles given as center plus full
extent, `collide` returns `none` exactly when the rectangles do not overlap;
when they overlap it returns the side of the second rectangle with the
minimum directional overlap depth (left = bMax.x - aMin.x,
right = aMax.x - bMin.x, top = bMax.y - aMin.y, bottom = aMax.y - bMin.y),
ties resolved to the first side compared in the fixed order
Left, Right, Top, Bottom. -/
theorem collide_min_penetration (aPos aSize bPos bSize : Vec2) :
    (collide aPos aSize bPos bSize = none ↔ ¬ rectsOverlap aPos aSize bPos bSize) ∧
    (∀ c, collide aPos aSize bPos bSize = some c →
      (∀ c', overlapDepth aPos aSize bPos bSize c ≤ overlapDepth aPos aSize bPos bSize c') ∧
      (∀ c', overlapDepth aPos aSize bPos bSize c' = overlapDepth aPos aSize bPos bSize c →
        sideIdx c ≤ sideIdx c')) := by
  have hdep : ∀ c, overlapDepth aPos aSize bPos bSize c =
      depth4 ((bPos.x + bSize.x / 2) - (aPos.x - aSize.x / 2))
        ((aPos.x + aSize.x / 2) - (bPos.x - bSize.x / 2))
        ((bPos.y + bSize.y / 2) - (aPos.y - aSize.y / 2))
        ((aPos.y + aSize.y / 2) - (bPos.y - bSize.y / 2)) c := by
    intro c
    cases c <;> rfl
  by_cases hov : rectsOverlap aPos aSize bPos bSize
  · have hov' : aPos.x - aSize.x / 2 < bPos.x + bSize.x / 2 ∧
        aPos.x + aSize.x / 2 > bPos.x - bSize.x / 2 ∧
        aPos.y - aSize.y / 2 < bPos.y + bSize.y / 2 ∧
        aPos.y + aSize.y / 2 > bPos.y - bSize.y / 2 := hov
    have hc : collide aPos aSize bPos bSize =
        some (pickSide ((bPos.x + bSize.x / 2) - (aPos.x - aSize.x / 2))
          ((aPos.x + aSize.x / 2) - (bPos.x - bSize.x / 2))
          ((bPos.y + bSize.y / 2) - (aPos.y - aSize.y / 2))
          ((aPos.y + aSize.y / 2) - (bPos.y - bSize.y / 2))) := by
      simp only [collide]
      rw [if_pos hov']
    refine ⟨by rw [hc]; simp [hov], fun c h => ?_⟩
    rw [hc] at h
    have hcp := Option.some.inj h
    subst hcp
    refine ⟨fun c' => ?_, fun c' hc' => ?_⟩
    · rw [hdep, hdep]
      exact (pickSide_depth_min _ _ _ _).1 c'
    · rw [hdep, hdep] at hc'
      exact (pickSide_depth_min _ _ _ _).2 c' hc'
  · have hov' : ¬ (aPos.x - aSize.x / 2 < bPos.x + bSize.x / 2 ∧
        aPos.x + aSize.x / 2 > bPos.x - bSize.x / 2 ∧
        aPos.y - aSize.y / 2 < bPos.y + bSize.y / 2 ∧
        aPos.y + aSize.y / 2 > bPos.y - bSize.y / 2) := hov
    have hc : collide aPos aSize bPos bSize = none := by
      simp only [collide]
      rw [if_neg hov']
    exact ⟨by rw [hc]; simp [hov], fun c h => by rw [hc] at h; cases h⟩

/-- Witness for C4: two concrete overlapping rectangles for which `collide`
reports `Right`; the theorem yields the minimality of the right-side depth. -/
theorem collide_min_penetration_witness :
    overlapDepth ⟨0, 0⟩ ⟨10, 10⟩ ⟨4, 0⟩ ⟨10, 10⟩ Collision.Right ≤
      overlapDepth ⟨0, 0⟩ ⟨10, 10⟩ ⟨4, 0⟩ ⟨10, 10⟩ Collision.Left :=
  ((collide_min_penetration ⟨0, 0⟩ ⟨10, 10⟩ ⟨4, 0⟩ ⟨10, 10⟩).2 Collision.Right
    (by norm_num [collide, pickSide, min_def])).1 Collision.Left

/-- Game flow states (lines 80-92). -/
inductive GameState where
  | MainMenu
  | DifficultySelect
  | Playing
  | Paused
  | GameOver
  | Victory
  | NextLevel
  | EnterName
  | Leaderboard
deriving DecidableEq, Repr

/-- Brick type enum (lines 163-168). -/
inductive BrickType where
  | Normal
  | Hard
  | Unbreakable
deriving DecidableEq, Repr

/-- A brick entity: its `Transform` translation plus the `Brick` component
fields (lines 157-161).  The sprite color, darkened on damage, is a pure
render-side shade with no gameplay effect and is not modelled. -/
structure Brick where
  pos : Vec2
  brick_type : BrickType
  health : ℤ
deriving DecidableEq, Repr

/-- Victory check (`check_victory`, lines 1589-1600), run on every `Update`
tick while in the `Playing` state.  Returns the next state it requests,
`none` when it requests no transition. -/
def check_victory (bricks : List Brick) : Option GameState :=
  let has_breakable_bricks :=
    bricks.any fun brick => ! (brick.brick_type == BrickType.Unbreakable)
  if ! has_breakable_bricks then some GameState.Victory else none

/-- C2: on every tick while Playing, `check_victory` requests the Victory
transition iff the number of bricks whose type is not Unbreakable is exactly
zero; any number of remaining Unbreakable bricks does not prevent Victory,
and while any Normal or Hard brick remains no transition is requested. -/
theorem check_victory_iff (bricks : List Brick) :
    (check_victory bricks = some GameState.Victory ↔
      bricks.countP (fun brick => ! (brick.brick_type == BrickType.Unbreakable)) = 0) ∧
    (check_victory bricks = none ↔
      0 < bricks.countP (fun brick => ! (brick.brick_type == BrickType.Unbreakable))) := by
  have key : (bricks.any fun brick => ! (brick.brick_type == BrickType.Unbreakable)) = true ↔
      0 < bricks.countP (fun brick => ! (brick.brick_type == BrickType.Unbreakable)) := by
    rw [List.any_eq_true, List.countP_pos_iff]
  simp only [check_victory]
  by_cases h : (bricks.any fun brick => ! (brick.brick_type == BrickType.Unbreakable)) = true
  · rw [h]
    simp only [Bool.not_true]
    rw [if_neg Bool.false_ne_true]
    have hpos := key.mp h
    refine ⟨⟨fun hx => Option.noConfusion hx, fun hx => absurd hx (by omega)⟩,
      ⟨fun _ => hpos, fun _ => rfl⟩⟩
  · have hf : (bricks.any fun brick => ! (brick.brick_type == BrickType.Unbreakable)) = false := by
      revert h
      cases bricks.any fun brick => ! (brick.brick_type == BrickType.Unbreakable) <;> simp
    rw [hf]
    simp only [Bool.not_false]
    rw [if_pos trivial]
    have h0 : bricks.countP (fun brick => ! (brick.brick_type == BrickType.Unbreakable)) = 0 := by
      by_contra hne
      exact h (key.mpr (Nat.pos_of_ne_zero hne))
    refine ⟨⟨fun _ => h0, fun _ => rfl⟩,
      ⟨fun hx => Option.noConfusion hx, fun hx => absurd hx (by omega)⟩⟩

/-- UTF-8 byte length of the name text, matching Rust `String::len`
(line 683 tests `name_input.text.len() < 20`, a byte count). -/
def utf8Len (text : List Char) : Nat := (text.map Char.utf8Size).sum

/-- One character-input event of the name-entry loop (`enter_name_system`,
lines 679-688).  Rust's Unicode character property `char::is_alphanumeric`
is a collaborator of the core and is passed in as the abstract predicate
`is_alphanumeric` (exactly as `cosF`/`sinF` stand for the trigonometric
collaborators elsewhere in this file); the length test is on the UTF-8
byte length, as `String::len` is. -/
def enter_name_char (is_alphanumeric : Char → Bool) (text : List Char) (ch : Char) :
    List Char :=
  if is_alphanumeric ch ∨ ch = ' ' then
    if utf8Len text < 20 then text ++ [ch] else text
  else text

/-- The event-reader loop of `enter_name_system` over all character events
queued in one tick (lines 679-688). -/
def enter_name_chars (is_alphanumeric : Char → Bool) (text : List Char)
    (events : List Char) : List Char :=
  events.foldl (enter_name_char is_alphanumeric) text

theorem length_le_utf8Len (text : List Char) : text.length ≤ utf8Len text := by
  induction text with
  | nil => exact Nat.le_refl 0
  | cons c cs ih =>
    have hc := Char.utf8Size_pos c
    have hcs : utf8Len cs = (cs.map Char.utf8Size).sum := rfl
    simp only [utf8Len, List.map_cons, List.sum_cons, List.length_cons]
    rw [hcs] at ih
    omega

theorem enter_name_char_length (p : Char → Bool) (text : List Char) (ch : Char)
    (h : text.length ≤ 20) : (enter_name_char p text ch).length ≤ 20 := by
  have hle := length_le_utf8Len text
  unfold enter_name_char
  rcases Decidable.em (p ch ∨ ch = ' ') with ha | ha
  · rw [if_pos ha]
    by_cases h2 : utf8Len text < 20
    · rw [if_pos h2]
      have hlen : (text ++ [ch]).length = text.length + 1 := by simp
      rw [hlen]
      omega
    · rw [if_neg h2]
      exact h
  · rw [if_neg ha]
    exact h

theorem enter_name_chars_length (p : Char → Bool) (events : List Char) :
    ∀ text : List Char, text.length ≤ 20 → (enter_name_chars p text events).length ≤ 20 := by
  induction events with
  | nil => exact fun text h => h
  | cons e es ih => exact fun text h => ih _ (enter_name_char_length p text e h)

/-- C9 counterexample: a space is appended rather than silently rejected —
the source's `|| ch == ' '` branch (line 682) accepts a space without even
consulting the alphanumeric property (here instantiated to classify every
character as non-alphanumeric, as Unicode classifies the space), so a
received space changes the name. -/
theorem enter_name_space_not_rejected :
    enter_name_char (fun _ => false) [] ' ' = [' '] ∧
    enter_name_char (fun _ => false) [] ' ' ≠ [] := by decide

/-- C9 (amended): during name entry — for any alphanumeric property the
collaborator supplies — every received character that is neither
alphanumeric nor a space is silently rejected (the name is unchanged, no
error is raised), as is every character arriving when the name's UTF-8
byte length is already 20, in particular whenever the name already has 20
characters; accepted characters are appended, and the name never exceeds
20 characters. -/
theorem enter_name_boundary (is_alphanumeric : Char → Bool) (text : List Char) (ch : Char) :
    (¬ (is_alphanumeric ch ∨ ch = ' ') → enter_name_char is_alphanumeric text ch = text) ∧
    (20 ≤ utf8Len text → enter_name_char is_alphanumeric text ch = text) ∧
    (20 ≤ text.length → enter_name_char is_alphanumeric text ch = text) ∧
    ((is_alphanumeric ch ∨ ch = ' ') → utf8Len text < 20 →
      enter_name_char is_alphanumeric text ch = text ++ [ch]) ∧
    (∀ events, text.length ≤ 20 →
      (enter_name_chars is_alphanumeric text events).length ≤ 20) := by
  refine ⟨fun h => by simp [enter_name_char, h], fun h => ?_, fun h => ?_, fun h1 h2 => ?_,
    fun events h => enter_name_chars_length is_alphanumeric events text h⟩
  · unfold enter_name_char
    rcases Decidable.em (is_alphanumeric ch ∨ ch = ' ') with ha | ha
    · rw [if_pos ha, if_neg (by omega)]
    · rw [if_neg ha]
  · have hle := length_le_utf8Len text
    unfold enter_name_char
    rcases Decidable.em (is_alphanumeric ch ∨ ch = ' ') with ha | ha
    · rw [if_pos ha, if_neg (by omega)]
    · rw [if_neg ha]
  · unfold enter_name_char
    rw [if_pos h1, if_pos h2]

/-- Witness for C9 (amended): a character the property rejects is dropped,
a name of 20 characters rejects further input, and an accepted letter is
appended to a short name. -/
theorem enter_name_boundary_witness :
    enter_name_char (fun _ => false) ['a'] '!' = ['a'] ∧
    enter_name_char (fun _ => true) (List.replicate 20 'a') 'b' = List.replicate 20 'a' ∧
    enter_name_char (fun _ => true) ['a'] 'b' = ['a', 'b'] :=
  ⟨(enter_name_boundary (fun _ => false) ['a'] '!').1 (by decide),
   (enter_name_boundary (fun _ => true) (List.replicate 20 'a') 'b').2.2.1 (by decide),
   (enter_name_boundary (fun _ => true) ['a'] 'b').2.2.2.1 (Or.inl rfl) (by decide)⟩

/-- Score awarded when a laser destroys a brick (lines 1172-1177). -/
def laserBrickScore : BrickType → Nat
  | BrickType.Normal => 15
  | BrickType.Hard => 30
  | BrickType.Unbreakable => 0

/-- Result of one laser's scan over the brick store: the surviving bricks,
the score increment, whether the laser was despawned, and whether the RNG
power-up spawn roll was invoked during the scan (the laser path never
invokes it; only the ball-impact destruction path of `ball_collision`,
line 1348, does). -/
structure LaserScanResult where
  bricks : List Brick
  scoreDelta : Nat
  laserDestroyed : Bool
  powerupRollAttempted : Bool
deriving DecidableEq, Repr

/-- The inner brick loop of `laser_collision` for one laser
(lines 1151-1193): the first brick the laser overlaps despawns the laser
and ends the scan; an Unbreakable brick is left undamaged, otherwise the
brick takes 2 damage and is despawned with score when its health drops to
0 or below. -/
def laser_collision (laserPos : Vec2) : List Brick → LaserScanResult
  | [] => ⟨[], 0, false, false⟩
  | brick :: rest =>
    match collide laserPos LASER_SIZE brick.pos BRICK_SIZE with
    | some _ =>
      if brick.brick_type = BrickType.Unbreakable then
        ⟨brick :: rest, 0, true, false⟩
      else
        let damaged : Brick := ⟨brick.pos, brick.brick_type, brick.health - 2⟩
        if damaged.health ≤ 0 then
          ⟨rest, laserBrickScore brick.brick_type, true, false⟩
        else
          ⟨damaged :: rest, 0, true, false⟩
    | none =>
      let r := laser_collision laserPos rest
      ⟨brick :: r.bricks, r.scoreDelta, r.laserDestroyed, r.powerupRollAttempted⟩

theorem laser_collision_hit (laserPos : Vec2) (b : Brick) (post : List Brick) (c : Collision)
    (hb : collide laserPos LASER_SIZE b.pos BRICK_SIZE = some c) :
    laser_collision laserPos (b :: post) =
      (if b.brick_type = BrickType.Unbreakable then ⟨b :: post, 0, true, false⟩
       else if b.health - 2 ≤ 0 then ⟨post, laserBrickScore b.brick_type, true, false⟩
       else ⟨⟨b.pos, b.brick_type, b.health - 2⟩ :: post, 0, true, false⟩ :
        LaserScanResult) := by
  simp only [laser_collision, hb]

theorem laser_collision_skip_misses (laserPos : Vec2) (pre rest : List Brick)
    (hpre : ∀ brick ∈ pre, collide laserPos LASER_SIZE brick.pos BRICK_SIZE = none) :
    laser_collision laserPos (pre ++ rest) =
      ⟨pre ++ (laser_collision laserPos rest).bricks,
       (laser_collision laserPos rest).scoreDelta,
       (laser_collision laserPos rest).laserDestroyed,
       (laser_collision laserPos rest).powerupRollAttempted⟩ := by
  induction pre with
  | nil => rfl
  | cons p pre ih =>
    have hp := hpre p (List.mem_cons_self p pre)
    have ih' := ih fun x hx => hpre x (List.mem_cons_of_mem p hx)
    simp only [List.cons_append, laser_collision, List.append_eq, hp, ih']

/-- C7: for every laser-vs-brick collision: the brick takes 2 damage
(instead of the ball's 1); on destruction the score increases by 15 for a
Normal brick and 30 for a Hard brick; the laser is destroyed on its first
brick contact regardless of outcome and never bounces, and a hit on an
Unbreakable brick destroys the laser immediately, damages nothing, and
scans no further bricks. -/
theorem laser_collision_rules (laserPos : Vec2) (pre : List Brick) (b : Brick)
    (post : List Brick) (c : Collision)
    (hpre : ∀ brick ∈ pre, collide laserPos LASER_SIZE brick.pos BRICK_SIZE = none)
    (hb : collide laserPos LASER_SIZE b.pos BRICK_SIZE = some c) :
    laser_collision laserPos (pre ++ b :: post) =
      (if b.brick_type = BrickType.Unbreakable then ⟨pre ++ b :: post, 0, true, false⟩
       else if b.health - 2 ≤ 0 then ⟨pre ++ post, laserBrickScore b.brick_type, true, false⟩
       else ⟨pre ++ ⟨b.pos, b.brick_type, b.health - 2⟩ :: post, 0, true, false⟩ :
        LaserScanResult) ∧
    (laser_collision laserPos (pre ++ b :: post)).laserDestroyed = true ∧
    (laser_collision laserPos (pre ++ b :: post)).powerupRollAttempted = false := by
  rw [laser_collision_skip_misses laserPos pre (b :: post) hpre,
    laser_collision_hit laserPos b post c hb]
  by_cases hu : b.brick_type = BrickType.Unbreakable
  · simp [hu]
  · by_cases hh : b.health - 2 ≤ 0
    · simp [hu, hh]
    · simp [hu, hh]

/-- Witness for C7: a concrete laser hit on a Hard brick with health 3:
the brick takes 2 damage and survives, the laser is destroyed. -/
theorem laser_collision_rules_witness :
    laser_collision ⟨0, 0⟩ [⟨⟨0, 0⟩, BrickType.Hard, 3⟩] =
      ⟨[⟨⟨0, 0⟩, BrickType.Hard, 1⟩], 0, true, false⟩ := by
  have h := (laser_collision_rules ⟨0, 0⟩ [] ⟨⟨0, 0⟩, BrickType.Hard, 3⟩ [] Collision.Top
    (fun brick hm => absurd hm (List.not_mem_nil brick))
    (by norm_num [collide, pickSide, min_def, LASER_SIZE, BRICK_SIZE])).1
  simp only [List.nil_append] at h
  rw [h]
  simp

/-- C8 counterexample: a laser strike on a Normal brick with health 1
destroys the brick, adds 15 to the score and despawns the laser, but the
power-up spawn roll is never invoked on the laser path — contradicting the
claimed spawn-roll attempt. -/
theorem laser_no_powerup_roll_cex :
    (laser_collision ⟨0, 0⟩ [⟨⟨0, 0⟩, BrickType.Normal, 1⟩]).bricks = [] ∧
    (laser_collision ⟨0, 0⟩ [⟨⟨0, 0⟩, BrickType.Normal, 1⟩]).scoreDelta = 15 ∧
    (laser_collision ⟨0, 0⟩ [⟨⟨0, 0⟩, BrickType.Normal, 1⟩]).laserDestroyed = true ∧
    (laser_collision ⟨0, 0⟩ [⟨⟨0, 0⟩, BrickType.Normal, 1⟩]).powerupRollAttempted ≠ true := by
  norm_num [laser_collision, collide, pickSide, min_def, LASER_SIZE, BRICK_SIZE,
    laserBrickScore]
  simp

/-- C8 (amended): whenever a laser strikes a Normal brick with health 1 as
its first brick contact, the brick is destroyed and the score increases by
15, but no power-up spawn roll is attempted: power-up spawn rolls happen
only on ball-impact destruction. -/
theorem laser_normal_health_one (laserPos : Vec2) (pre : List Brick) (b : Brick)
    (post : List Brick) (c : Collision)
    (hpre : ∀ brick ∈ pre, collide laserPos LASER_SIZE brick.pos BRICK_SIZE = none)
    (hb : collide laserPos LASER_SIZE b.pos BRICK_SIZE = some c)
    (ht : b.brick_type = BrickType.Normal) (hh : b.health = 1) :
    laser_collision laserPos (pre ++ b :: post) = ⟨pre ++ post, 15, true, false⟩ := by
  rw [laser_collision_skip_misses laserPos pre (b :: post) hpre,
    laser_collision_hit laserPos b post c hb, ht, hh]
  rw [if_neg (fun hcon => BrickType.noConfusion hcon)]
  rw [if_pos (by norm_num : (1 : ℤ) - 2 ≤ 0)]
  simp [laserBrickScore]

/-- Witness for C8 (amended): the concrete Normal health-1 brick of the
counterexample, via the amended theorem. -/
theorem laser_normal_health_one_witness :
    laser_collision ⟨0, 0⟩ [⟨⟨0, 0⟩, BrickType.Normal, 1⟩] = ⟨[], 15, true, false⟩ :=
  laser_normal_health_one ⟨0, 0⟩ [] ⟨⟨0, 0⟩, BrickType.Normal, 1⟩ [] Collision.Top
    (fun brick hm => absurd hm (List.not_mem_nil brick))
    (by norm_num [collide, pickSide, min_def, LASER_SIZE, BRICK_SIZE]) rfl rfl

/-- Velocity reflection on brick impact (lines 1307-1314 and 1320-1327):
Left/Right collisions negate the X component, Top/Bottom negate Y. -/
def reflect (c : Collision) (vel : Vec2) : Vec2 :=
  match c with
  | Collision.Left => ⟨-vel.x, vel.y⟩
  | Collision.Right => ⟨-vel.x, vel.y⟩
  | Collision.Top => ⟨vel.x, -vel.y⟩
  | Collision.Bottom => ⟨vel.x, -vel.y⟩

/-- Score awarded when a ball destroys a brick (lines 1337-1342). -/
def ballBrickScore : BrickType → Nat
  | BrickType.Normal => 10
  | BrickType.Hard => 20
  | BrickType.Unbreakable => 0

/-- Result of one ball's brick scan: the final ball velocity, the surviving
bricks, the score increment, and whether the 20% power-up spawn roll was
invoked (line 1348; invoked exactly when the ball destroys a breakable
brick). -/
structure BrickScanResult where
  vel : Vec2
  bricks : List Brick
  scoreDelta : Nat
  powerupRollAttempted : Bool
deriving DecidableEq, Repr

/-- The per-ball brick loop of `ball_collision` (lines 1297-1362): an
Unbreakable hit reflects the ball and continues the scan; the first
breakable hit reflects the ball (unless the penetrating effect is active),
applies 1 damage, despawns the brick with score and one power-up spawn roll
when health reaches 0, and breaks out of the scan.  The ball position is
not mutated inside the loop, so every test uses the same position. -/
def ball_brick_scan (ballPos : Vec2) (penetrating : Bool) (vel : Vec2) :
    List Brick → BrickScanResult
  | [] => ⟨vel, [], 0, false⟩
  | brick :: rest =>
    match collide ballPos BALL_SIZE brick.pos BRICK_SIZE with
    | some c =>
      if brick.brick_type = BrickType.Unbreakable then
        let r := ball_brick_scan ballPos penetrating (reflect c vel) rest
        ⟨r.vel, brick :: r.bricks, r.scoreDelta, r.powerupRollAttempted⟩
      else
        let vel2 := if penetrating then vel else reflect c vel
        if brick.health - 1 ≤ 0 then
          ⟨vel2, rest, ballBrickScore brick.brick_type, true⟩
        else
          ⟨vel2, ⟨brick.pos, brick.brick_type, brick.health - 1⟩ :: rest, 0, false⟩
    | none =>
      let r := ball_brick_scan ballPos penetrating vel rest
      ⟨r.vel, brick :: r.bricks, r.scoreDelta, r.powerupRollAttempted⟩

theorem ball_brick_scan_hit (ballPos : Vec2) (pen : Bool) (vel : Vec2) (b : Brick)
    (post : List Brick) (c : Collision)
    (hb : collide ballPos BALL_SIZE b.pos BRICK_SIZE = some c)
    (hbt : ¬ b.brick_type = BrickType.Unbreakable) :
    ball_brick_scan ballPos pen vel (b :: post) =
      (if b.health - 1 ≤ 0 then
        ⟨if pen then vel else reflect c vel, post, ballBrickScore b.brick_type, true⟩
       else
        ⟨if pen then vel else reflect c vel,
          ⟨b.pos, b.brick_type, b.health - 1⟩ :: post, 0, false⟩ : BrickScanResult) := by
  simp only [ball_brick_scan, hb]
  rw [if_neg hbt]

theorem ball_brick_scan_pass (ballPos : Vec2) (pen : Bool) (pre rest : List Brick)
    (hpre : ∀ brick ∈ pre, collide ballPos BALL_SIZE brick.pos BRICK_SIZE = none ∨
      brick.brick_type = BrickType.Unbreakable) :
    ∀ vel, ∃ vel2,
      ball_brick_scan ballPos pen vel (pre ++ rest) =
        ⟨(ball_brick_scan ballPos pen vel2 rest).vel,
         pre ++ (ball_brick_scan ballPos pen vel2 rest).bricks,
         (ball_brick_scan ballPos pen vel2 rest).scoreDelta,
         (ball_brick_scan ballPos pen vel2 rest).powerupRollAttempted⟩ := by
  induction pre with
  | nil => exact fun vel => ⟨vel, rfl⟩
  | cons p pre ih =>
    intro vel
    have hp := hpre p (List.mem_cons_self p pre)
    have ih' := ih fun x hx => hpre x (List.mem_cons_of_mem p hx)
    rcases hcol : collide ballPos BALL_SIZE p.pos BRICK_SIZE with _ | c
    · obtain ⟨vel2, h⟩ := ih' vel
      exact ⟨vel2, by simp only [List.cons_append, ball_brick_scan, List.append_eq, hcol, h]⟩
    · rcases hp with hnone | hub
      · rw [hcol] at hnone
        cases hnone
      · obtain ⟨vel2, h⟩ := ih' (reflect c vel)
        refine ⟨vel2, ?_⟩
        simp only [List.cons_append, ball_brick_scan, List.append_eq, hcol]
        rw [if_pos hub, h]

theorem ball_brick_scan_unbreakable_only (ballPos : Vec2) (pen : Bool) (bricks : List Brick)
    (h : ∀ brick ∈ bricks, collide ballPos BALL_SIZE brick.pos BRICK_SIZE = none ∨
      brick.brick_type = BrickType.Unbreakable) :
    ∀ vel, (ball_brick_scan ballPos pen vel bricks).bricks = bricks ∧
      (ball_brick_scan ballPos pen vel bricks).scoreDelta = 0 ∧
      (ball_brick_scan ballPos pen vel bricks).powerupRollAttempted = false := by
  intro vel
  obtain ⟨vel2, heq⟩ := ball_brick_scan_pass ballPos pen bricks [] h vel
  rw [List.append_nil] at heq
  rw [heq]
  simp [ball_brick_scan]

/-- C6: in the per-ball brick scan, a collision with an Unbreakable brick
reflects the ball and continues scanning the remaining bricks, whereas the
first collision with a breakable brick terminates the scan: all bricks
before the first colliding breakable brick (misses or Unbreakable bounces)
are left unchanged, the bricks after it are not scanned, and at most that
one breakable brick is damaged per ball per tick; when every collision in
the list is with an Unbreakable brick the scan runs to the end and damages
nothing. -/
theorem ball_brick_scan_rules (ballPos : Vec2) (pen : Bool) (vel : Vec2)
    (pre : List Brick) (b : Brick) (post : List Brick) (c : Collision)
    (hpre : ∀ brick ∈ pre, collide ballPos BALL_SIZE brick.pos BRICK_SIZE = none ∨
      brick.brick_type = BrickType.Unbreakable)
    (hb : collide ballPos BALL_SIZE b.pos BRICK_SIZE = some c)
    (hbt : ¬ b.brick_type = BrickType.Unbreakable) :
    ((ball_brick_scan ballPos pen vel (pre ++ b :: post)).bricks =
        pre ++ (if b.health - 1 ≤ 0 then post
                else ⟨b.pos, b.brick_type, b.health - 1⟩ :: post) ∧
      (ball_brick_scan ballPos pen vel (pre ++ b :: post)).scoreDelta =
        (if b.health - 1 ≤ 0 then ballBrickScore b.brick_type else 0) ∧
      (ball_brick_scan ballPos pen vel (pre ++ b :: post)).powerupRollAttempted =
        decide (b.health - 1 ≤ 0)) ∧
    (∀ bricks, (∀ brick ∈ bricks, collide ballPos BALL_SIZE brick.pos BRICK_SIZE = none ∨
        brick.brick_type = BrickType.Unbreakable) →
      (ball_brick_scan ballPos pen vel bricks).bricks = bricks ∧
      (ball_brick_scan ballPos pen vel bricks).scoreDelta = 0 ∧
      (ball_brick_scan ballPos pen vel bricks).powerupRollAttempted = false) := by
  constructor
  · obtain ⟨vel2, heq⟩ := ball_brick_scan_pass ballPos pen pre (b :: post) hpre vel
    rw [heq, ball_brick_scan_hit ballPos pen vel2 b post c hb hbt]
    by_cases hh : b.health - 1 ≤ 0
    · simp [hh]
    · simp [hh]
  · exact fun bricks hbr => ball_brick_scan_unbreakable_only ballPos pen bricks hbr vel

/-- Witness for C6: the ball overlaps an Unbreakable brick, continues the
scan, and then damages a Normal brick with health 2 placed after it; the
trailing distant brick is untouched. -/
theorem ball_brick_scan_rules_witness :
    (ball_brick_scan ⟨0, 0⟩ false ⟨100, -200⟩
        [⟨⟨0, 0⟩, BrickType.Unbreakable, 1⟩, ⟨⟨0, 0⟩, BrickType.Normal, 2⟩,
         ⟨⟨2000, 2000⟩, BrickType.Normal, 1⟩]).bricks =
      [⟨⟨0, 0⟩, BrickType.Unbreakable, 1⟩, ⟨⟨0, 0⟩, BrickType.Normal, 1⟩,
       ⟨⟨2000, 2000⟩, BrickType.Normal, 1⟩] := by
  have h := ((ball_brick_scan_rules ⟨0, 0⟩ false ⟨100, -200⟩
    [⟨⟨0, 0⟩, BrickType.Unbreakable, 1⟩] ⟨⟨0, 0⟩, BrickType.Normal, 2⟩
    [⟨⟨2000, 2000⟩, BrickType.Normal, 1⟩] Collision.Top
    (fun brick hm => by
      rw [List.mem_singleton] at hm
      subst hm
      exact Or.inr rfl)
    (by norm_num [collide, pickSide, min_def, BALL_SIZE, BRICK_SIZE])
    (fun hcon => BrickType.noConfusion hcon)).1).1
  simp only [List.singleton_append] at h
  rw [h]
  simp

/-- One damage interaction against the brick store: a ball's brick scan or
a laser's brick scan, with that interaction's parameters. -/
inductive HitOp where
  | ball (ballPos : Vec2) (penetrating : Bool) (vel : Vec2)
  | laser (laserPos : Vec2)

/-- Apply one interaction to the brick store, keeping the surviving
bricks. -/
def applyHit (bricks : List Brick) : HitOp → List Brick
  | HitOp.ball ballPos pen vel => (ball_brick_scan ballPos pen vel bricks).bricks
  | HitOp.laser laserPos => (laser_collision laserPos bricks).bricks

/-- Apply a sequence of ball and laser interactions to the brick store. -/
def applyHits (bricks : List Brick) (ops : List HitOp) : List Brick :=
  ops.foldl applyHit bricks

theorem ball_brick_scan_filter (ballPos : Vec2) (pen : Bool) (bricks : List Brick) :
    ∀ vel, ((ball_brick_scan ballPos pen vel bricks).bricks.filter
        fun brick => brick.brick_type == BrickType.Unbreakable) =
      bricks.filter (fun brick => brick.brick_type == BrickType.Unbreakable) := by
  induction bricks with
  | nil => exact fun vel => rfl
  | cons brick rest ih =>
    intro vel
    rcases hcol : collide ballPos BALL_SIZE brick.pos BRICK_SIZE with _ | c
    · simp only [ball_brick_scan, hcol, List.filter_cons]
      rw [ih vel]
    · by_cases hub : brick.brick_type = BrickType.Unbreakable
      · simp only [ball_brick_scan, hcol]
        rw [if_pos hub]
        simp only [List.filter_cons]
        rw [ih (reflect c vel)]
      · have hfalse : (brick.brick_type == BrickType.Unbreakable) = false := by
          simp [hub]
        simp only [ball_brick_scan, hcol]
        rw [if_neg hub]
        by_cases hh : brick.health - 1 ≤ 0
        · rw [if_pos hh]
          simp only [List.filter_cons, hfalse]
          simp
        · rw [if_neg hh]
          simp only [List.filter_cons, hfalse]
          simp [hub]

theorem laser_collision_filter (laserPos : Vec2) (bricks : List Brick) :
    ((laser_collision laserPos bricks).bricks.filter
        fun brick => brick.brick_type == BrickType.Unbreakable) =
      bricks.filter (fun brick => brick.brick_type == BrickType.Unbreakable) := by
  induction bricks with
  | nil => rfl
  | cons brick rest ih =>
    rcases hcol : collide laserPos LASER_SIZE brick.pos BRICK_SIZE with _ | c
    · simp only [laser_collision, hcol, List.filter_cons]
      rw [ih]
    · by_cases hub : brick.brick_type = BrickType.Unbreakable
      · simp only [laser_collision, hcol]
        rw [if_pos hub]
      · have hfalse : (brick.brick_type == BrickType.Unbreakable) = false := by
          simp [hub]
        simp only [laser_collision, hcol]
        rw [if_neg hub]
        by_cases hh : brick.health - 2 ≤ 0
        · rw [if_pos hh]
          simp only [List.filter_cons, hfalse]
          simp
        · rw [if_neg hh]
          simp only [List.filter_cons, hfalse]
          simp [hub]

/-- C3: Unbreakable bricks are never damaged: across any sequence of ball
and laser brick interactions, the Unbreakable bricks of the store are
preserved exactly — same bricks, same health, never despawned; a ball scan
in which every collision is with Unbreakable bricks changes no brick,
awards no score and rolls no power-up (only the ball's velocity may
change), and a laser whose first contact is an Unbreakable brick leaves
every brick untouched and is itself destroyed. -/
theorem unbreakable_invariant (ops : List HitOp) (bricks : List Brick) :
    ((applyHits bricks ops).filter (fun brick => brick.brick_type == BrickType.Unbreakable) =
      bricks.filter (fun brick => brick.brick_type == BrickType.Unbreakable)) ∧
    (∀ ballPos pen vel bs,
      (∀ brick ∈ bs, collide ballPos BALL_SIZE brick.pos BRICK_SIZE = none ∨
        brick.brick_type = BrickType.Unbreakable) →
      (ball_brick_scan ballPos pen vel bs).bricks = bs ∧
      (ball_brick_scan ballPos pen vel bs).scoreDelta = 0 ∧
      (ball_brick_scan ballPos pen vel bs).powerupRollAttempted = false) ∧
    (∀ laserPos (b : Brick) post c,
      collide laserPos LASER_SIZE b.pos BRICK_SIZE = some c →
      b.brick_type = BrickType.Unbreakable →
      laser_collision laserPos (b :: post) = ⟨b :: post, 0, true, false⟩) := by
  refine ⟨?_,
    fun ballPos pen vel bs h => ball_brick_scan_unbreakable_only ballPos pen bs h vel,
    fun laserPos b post c hcol hub => ?_⟩
  · induction ops generalizing bricks with
    | nil => rfl
    | cons op ops ih =>
      have hstep : applyHits bricks (op :: ops) = applyHits (applyHit bricks op) ops := rfl
      rw [hstep, ih (applyHit bricks op)]
      cases op with
      | ball ballPos pen vel => exact ball_brick_scan_filter ballPos pen bricks vel
      | laser laserPos => exact laser_collision_filter laserPos bricks
  · rw [laser_collision_hit laserPos b post c hcol]
    rw [if_pos hub]

/-- Witness for C3: a concrete laser hit on an Unbreakable brick leaves the
brick store untouched and destroys only the laser. -/
theorem unbreakable_invariant_witness :
    laser_collision ⟨0, 0⟩ [⟨⟨0, 0⟩, BrickType.Unbreakable, 1⟩] =
      ⟨[⟨⟨0, 0⟩, BrickType.Unbreakable, 1⟩], 0, true, false⟩ :=
  (unbreakable_invariant [] []).2.2 ⟨0, 0⟩ ⟨⟨0, 0⟩, BrickType.Unbreakable, 1⟩ [] Collision.Top
    (by norm_num [collide, pickSide, min_def, LASER_SIZE, BRICK_SIZE]) rfl

/-- Outcome of the bottom-boundary segment of `ball_collision` for one
ball (lines 1252-1273).  `removed` marks the ball queued for despawn
(other balls remain); `nextState` is the requested state transition;
`lives` the updated life count; `pos` the possibly-reset ball position;
`respawnVel` is `some (dir, speed)` when the source assigns the velocity
`dir.normalize() * speed` — the unit diagonal is irrational, so the
direction and the speed magnitude are carried symbolically. -/
structure BottomResult where
  removed : Bool
  nextState : Option GameState
  lives : Nat
  pos : Vec2
  respawnVel : Option (Vec2 × ℚ)
deriving DecidableEq, Repr

/-- The bottom-boundary segment of `ball_collision` (lines 1252-1273):
below the bottom edge, with other balls alive this ball is queued for
removal only; as the last ball, lives = 1 requests GameOver, otherwise one
life is lost (`saturating_sub` is `Nat` subtraction) and the ball respawns
at (0, -200) with velocity `normalize(±1, 1) * BALL_SPEED *
ball_speed_modifier`, the horizontal sign drawn from `randPositive`. -/
def bottom_loss (pos : Vec2) (total_balls lives : Nat) (ball_speed_modifier : ℚ)
    (randPositive : Bool) : BottomResult :=
  if pos.y < -(WINDOW_HEIGHT / 2) then
    if total_balls > 1 then
      ⟨true, none, lives, pos, none⟩
    else if lives = 1 then
      ⟨false, some GameState.GameOver, lives, pos, none⟩
    else
      ⟨false, none, lives - 1, ⟨0, -200⟩,
        some (⟨if randPositive then 1 else -1, 1⟩, BALL_SPEED * ball_speed_modifier)⟩
  else
    ⟨false, none, lives, pos, none⟩

/-- Per-tick ball movement (`ball_movement`, lines 1199-1209):
`translation += velocity * power_modifier * difficulty_modifier * dt`. -/
def ball_movement (pos vel : Vec2) (power_modifier difficulty_modifier dt : ℚ) : Vec2 :=
  ⟨pos.x + vel.x * power_modifier * difficulty_modifier * dt,
   pos.y + vel.y * power_modifier * difficulty_modifier * dt⟩

/-- The wall-collision segment of `ball_collision` (lines 1235-1250):
clamp to the side walls reflecting the X velocity outward, clamp to the
top wall reflecting Y downward; no wall exists at the bottom.  Returns the
updated position and velocity. -/
def wall_bounce (pos vel : Vec2) : Vec2 × Vec2 :=
  let half_width := WINDOW_WIDTH / 2
  let half_height := WINDOW_HEIGHT / 2
  let step1 : Vec2 × Vec2 :=
    if pos.x < -half_width + BALL_SIZE.x / 2 then
      (⟨-half_width + BALL_SIZE.x / 2, pos.y⟩, ⟨|vel.x|, vel.y⟩)
    else if pos.x > half_width - BALL_SIZE.x / 2 then
      (⟨half_width - BALL_SIZE.x / 2, pos.y⟩, ⟨-|vel.x|, vel.y⟩)
    else (pos, vel)
  if step1.1.y > half_height - BALL_SIZE.y / 2 then
    (⟨step1.1.x, half_height - BALL_SIZE.y / 2⟩, ⟨step1.2.x, -|step1.2.y|⟩)
  else step1

/-- C1: on a Playing tick in which a ball sits below the bottom field
edge: with at least one other ball alive only this ball is removed and
lives are unchanged; as the last ball, lives = 1 requests the GameOver
transition, and lives > 1 decrements lives by one and respawns the ball at
(0, -200) with a randomized-diagonal velocity of magnitude BALL_SPEED
times the difficulty ball-speed modifier.  Concretely, a single ball at
(0, -295) moving (0, -400) with dt = 1/10 and lives = 1 yields GameOver
after movement and wall clamping. -/
theorem bottom_loss_rules (pos : Vec2) (total_balls lives : Nat) (m : ℚ) (r : Bool) :
    (pos.y < -(WINDOW_HEIGHT / 2) →
      ((1 < total_balls →
        bottom_loss pos total_balls lives m r = ⟨true, none, lives, pos, none⟩) ∧
      (total_balls ≤ 1 → lives = 1 →
        bottom_loss pos total_balls lives m r =
          ⟨false, some GameState.GameOver, lives, pos, none⟩) ∧
      (total_balls ≤ 1 → 1 < lives →
        bottom_loss pos total_balls lives m r =
          ⟨false, none, lives - 1, ⟨0, -200⟩,
            some (⟨if r then 1 else -1, 1⟩, BALL_SPEED * m)⟩))) ∧
    (bottom_loss (wall_bounce (ball_movement ⟨0, -295⟩ ⟨0, -400⟩ 1 1 (1 / 10)) ⟨0, -400⟩).1
        1 1 1 r).nextState = some GameState.GameOver := by
  constructor
  · intro hy
    unfold bottom_loss
    rw [if_pos hy]
    refine ⟨fun ht => ?_, fun ht hl => ?_, fun ht hl => ?_⟩
    · rw [if_pos ht]
    · rw [if_neg (by omega : ¬ total_balls > 1), if_pos hl]
    · rw [if_neg (by omega : ¬ total_balls > 1), if_neg (by omega : ¬ lives = 1)]
  · norm_num [ball_movement, wall_bounce, bottom_loss, WINDOW_WIDTH, WINDOW_HEIGHT, BALL_SIZE]

/-- Witness for C1: the last ball at (0, -335), below the bottom edge,
with lives = 1 yields the GameOver request. -/
theorem bottom_loss_rules_witness :
    bottom_loss ⟨0, -335⟩ 1 1 1 true =
      ⟨false, some GameState.GameOver, 1, ⟨0, -335⟩, none⟩ :=
  ((bottom_loss_rules ⟨0, -335⟩ 1 1 1 true).1 (by norm_num [WINDOW_HEIGHT])).2.1
    (le_refl 1) rfl

/-- The paddle-collision segment of `ball_collision` (lines 1275-1295):
Left/Right collisions negate the X velocity; Top/Bottom set the Y velocity
to its absolute value and recompute X from the hit offset as
`(ball.x - paddle.x) / (paddle_width / 2) * BALL_SPEED * 0.75`.  The
paddle width passed in is the base width times the paddle-size power-up
modifier (line 1229). -/
def paddle_bounce (ballPos vel paddlePos : Vec2) (paddle_width : ℚ) : Vec2 :=
  match collide ballPos BALL_SIZE paddlePos ⟨paddle_width, PADDLE_SIZE.y⟩ with
  | none => vel
  | some Collision.Left => ⟨-vel.x, vel.y⟩
  | some Collision.Right => ⟨-vel.x, vel.y⟩
  | some Collision.Top =>
    ⟨(ballPos.x - paddlePos.x) / (paddle_width / 2) * BALL_SPEED * 0.75, |vel.y|⟩
  | some Collision.Bottom =>
    ⟨(ballPos.x - paddlePos.x) / (paddle_width / 2) * BALL_SPEED * 0.75, |vel.y|⟩

/-- C5: a ball-paddle collision resolved as Top or Bottom sets the Y
velocity to its absolute value (strictly upward when it was nonzero) and
recomputes the X velocity as the hit offset over the paddle half-width
times BALL_SPEED times 0.75 — exactly zero for a hit at the paddle
center; Left/Right collisions negate the X velocity instead. -/
theorem paddle_bounce_rules (ballPos vel paddlePos : Vec2) (w : ℚ) :
    (∀ c, collide ballPos BALL_SIZE paddlePos ⟨w, PADDLE_SIZE.y⟩ = some c →
      (c = Collision.Top ∨ c = Collision.Bottom) →
      paddle_bounce ballPos vel paddlePos w =
        ⟨(ballPos.x - paddlePos.x) / (w / 2) * BALL_SPEED * 0.75, |vel.y|⟩ ∧
      (vel.y ≠ 0 → 0 < (paddle_bounce ballPos vel paddlePos w).y) ∧
      (ballPos.x = paddlePos.x → (paddle_bounce ballPos vel paddlePos w).x = 0)) ∧
    (∀ c, collide ballPos BALL_SIZE paddlePos ⟨w, PADDLE_SIZE.y⟩ = some c →
      (c = Collision.Left ∨ c = Collision.Right) →
      paddle_bounce ballPos vel paddlePos w = ⟨-vel.x, vel.y⟩) := by
  constructor
  · intro c hc hcase
    have heq : paddle_bounce ballPos vel paddlePos w =
        ⟨(ballPos.x - paddlePos.x) / (w / 2) * BALL_SPEED * 0.75, |vel.y|⟩ := by
      rcases hcase with rfl | rfl
      · simp only [paddle_bounce, hc]
      · simp only [paddle_bounce, hc]
    refine ⟨heq, fun hy => ?_, fun hx => ?_⟩
    · rw [heq]
      exact abs_pos.mpr hy
    · rw [heq]
      simp [hx]
  · intro c hc hcase
    rcases hcase with rfl | rfl
    · simp only [paddle_bounce, hc]
    · simp only [paddle_bounce, hc]

/-- Witness for C5: a concrete hit at the exact paddle center resolved as
Top: the outgoing velocity is (0, 400). -/
theorem paddle_bounce_rules_witness :
    paddle_bounce ⟨0, -245⟩ ⟨100, -400⟩ ⟨0, -250⟩ 120 = ⟨0, 400⟩ := by
  have h := ((paddle_bounce_rules ⟨0, -245⟩ ⟨100, -400⟩ ⟨0, -250⟩ 120).1 Collision.Top
    (by norm_num [collide, pickSide, min_def, BALL_SIZE, PADDLE_SIZE]) (Or.inl rfl)).1
  rw [h]
  have habs : |(-400 : ℚ)| = 400 := by
    rw [abs_of_nonpos (by norm_num)]
    norm_num
  rw [habs]
  norm_num [BALL_SPEED]

/-- Power-up type enum (lines 176-185). -/
inductive PowerUpType where
  | PaddleExpand
  | PaddleShrink
  | BallSpeedUp
  | BallSpeedDown
  | MultiBall
  | PenetratingBall
  | LaserGun
deriving DecidableEq, Repr

/-- The `PowerUpEffects` resource (lines 254-262). -/
structure PowerUpEffects where
  paddle_size_modifier : ℚ
  ball_speed_modifier : ℚ
  penetrating_ball : Bool
  penetrating_timer : ℚ
  has_laser : Bool
  laser_timer : ℚ
deriving DecidableEq, Repr

/-- The `Default` impl for `PowerUpEffects` (lines 264-275). -/
def PowerUpEffects.default : PowerUpEffects := ⟨1, 1, false, 0, false, 0⟩

/-- A ball entity: its `Transform` translation and its `Ball` component
velocity (lines 152-155). -/
structure Ball where
  pos : Vec2
  velocity : Vec2
deriving DecidableEq, Repr

/-- Rotation of a velocity by `angle`, written as the source writes it with
`angle.cos()` and `angle.sin()` (lines 1528-1532).  Cosine and sine are
irrational-valued, so they are passed in as the function parameters
`cosF` and `sinF`. -/
def rotate (cosF sinF : ℚ → ℚ) (angle : ℚ) (v : Vec2) : Vec2 :=
  ⟨v.x * cosF angle - v.y * sinF angle,
   v.x * sinF angle + v.y * cosF angle⟩

/-- The MultiBall branch of `powerup_collision` (lines 1524-1552):
`ball_query.get_single()` succeeds only when exactly one ball exists; two
balls are then spawned at its position with its velocity rotated by
`(i - 0.5) * 0.5` radians for i = 0, 1. -/
def multi_ball_spawns (cosF sinF : ℚ → ℚ) (balls : List Ball) : List Ball :=
  match balls with
  | [ball] =>
    (List.range 2).map fun i =>
      ⟨ball.pos, rotate cosF sinF (((i : ℚ) - 0.5) * 0.5) ball.velocity⟩
  | _ => []

/-- The effect-application match of `powerup_collision` (lines 1510-1561):
the updated effects together with the balls spawned. -/
def apply_power_up (cosF sinF : ℚ → ℚ) (e : PowerUpEffects) (t : PowerUpType)
    (balls : List Ball) : PowerUpEffects × List Ball :=
  match t with
  | PowerUpType.PaddleExpand =>
    ({ e with paddle_size_modifier := min (e.paddle_size_modifier * 1.5) 2.5 }, [])
  | PowerUpType.PaddleShrink =>
    ({ e with paddle_size_modifier := max (e.paddle_size_modifier * 0.7) 0.5 }, [])
  | PowerUpType.BallSpeedUp =>
    ({ e with ball_speed_modifier := min (e.ball_speed_modifier * 1.3) 2.0 }, [])
  | PowerUpType.BallSpeedDown =>
    ({ e with ball_speed_modifier := max (e.ball_speed_modifier * 0.7) 0.5 }, [])
  | PowerUpType.MultiBall => (e, multi_ball_spawns cosF sinF balls)
  | PowerUpType.PenetratingBall =>
    ({ e with penetrating_ball := true, penetrating_timer := 10 }, [])
  | PowerUpType.LaserGun =>
    ({ e with has_laser := true, laser_timer := 15 }, [])

/-- Result of `powerup_collision` for one power-up: the updated effects,
the balls spawned, and whether the power-up entity was despawned. -/
structure PowerUpApplyResult where
  effects : PowerUpEffects
  spawned : List Ball
  consumed : Bool
deriving Repr

/-- The per-power-up body of `powerup_collision` (lines 1503-1564): on
overlap with the paddle (at its current modifier-scaled width) the effect
is applied and the power-up despawned; otherwise nothing happens. -/
def powerup_collision (cosF sinF : ℚ → ℚ) (powerupPos : Vec2) (t : PowerUpType)
    (paddlePos : Vec2) (e : PowerUpEffects) (balls : List Ball) : PowerUpApplyResult :=
  let paddle_width := PADDLE_SIZE.x * e.paddle_size_modifier
  match collide powerupPos ⟨30, 15⟩ paddlePos ⟨paddle_width, PADDLE_SIZE.y⟩ with
  | some _ =>
    let applied := apply_power_up cosF sinF e t balls
    ⟨applied.1, applied.2, true⟩
  | none => ⟨e, [], false⟩

/-- C10: collecting a MultiBall power-up spawns the two additional balls —
velocities equal to the existing ball's velocity rotated by -0.25 and
+0.25 radians — only when exactly one ball currently exists; with zero or
two-plus balls nothing is spawned, yet the power-up is still consumed. -/
theorem multi_ball_only_single (cosF sinF : ℚ → ℚ) (powerupPos paddlePos : Vec2)
    (e : PowerUpEffects) (balls : List Ball) (c : Collision)
    (hhit : collide powerupPos ⟨30, 15⟩ paddlePos
      ⟨PADDLE_SIZE.x * e.paddle_size_modifier, PADDLE_SIZE.y⟩ = some c) :
    (powerup_collision cosF sinF powerupPos PowerUpType.MultiBall paddlePos e
        balls).consumed = true ∧
    ((powerup_collision cosF sinF powerupPos PowerUpType.MultiBall paddlePos e
        balls).spawned =
      match balls with
      | [ball] => [⟨ball.pos, rotate cosF sinF (-0.25) ball.velocity⟩,
                   ⟨ball.pos, rotate cosF sinF 0.25 ball.velocity⟩]
      | _ => []) ∧
    (balls.length ≠ 1 →
      (powerup_collision cosF sinF powerupPos PowerUpType.MultiBall paddlePos e
        balls).spawned = []) := by
  have hspawn : (powerup_collision cosF sinF powerupPos PowerUpType.MultiBall paddlePos e
      balls).spawned = multi_ball_spawns cosF sinF balls := by
    simp only [powerup_collision, hhit, apply_power_up]
  have hsingle : ∀ ball : Ball, multi_ball_spawns cosF sinF [ball] =
      [⟨ball.pos, rotate cosF sinF (-0.25) ball.velocity⟩,
       ⟨ball.pos, rotate cosF sinF 0.25 ball.velocity⟩] := by
    intro ball
    have h0 : (((0 : Nat) : ℚ) - 0.5) * 0.5 = -0.25 := by norm_num
    have h1 : (((1 : Nat) : ℚ) - 0.5) * 0.5 = 0.25 := by norm_num
    simp [multi_ball_spawns, List.range_succ, h0, h1]
    constructor
    · rw [(by norm_num : (-(0.5 * 0.5) : ℚ) = -0.25)]
    · rw [(by norm_num : ((1 - 0.5) * 0.5 : ℚ) = 0.25)]
  refine ⟨by simp only [powerup_collision, hhit], ?_, ?_⟩
  · rw [hspawn]
    match balls with
    | [] => rfl
    | [ball] => exact hsingle ball
    | b1 :: b2 :: rest => rfl
  · intro hlen
    rw [hspawn]
    match balls, hlen with
    | [], _ => rfl
    | [ball], hlen => exact absurd rfl hlen
    | b1 :: b2 :: rest, _ => rfl

/-- Witness for C10: a power-up overlapping the paddle with zero balls
alive: nothing is spawned, the power-up is still consumed. -/
theorem multi_ball_only_single_witness :
    (powerup_collision (fun _ => 1) (fun _ => 0) ⟨0, -250⟩ PowerUpType.MultiBall ⟨0, -250⟩
        PowerUpEffects.default []).consumed = true ∧
    (powerup_collision (fun _ => 1) (fun _ => 0) ⟨0, -250⟩ PowerUpType.MultiBall ⟨0, -250⟩
        PowerUpEffects.default []).spawned = [] := by
  have h := multi_ball_only_single (fun _ => 1) (fun _ => 0) ⟨0, -250⟩ ⟨0, -250⟩
    PowerUpEffects.default [] Collision.Top
    (by norm_num [collide, pickSide, min_def, PADDLE_SIZE, PowerUpEffects.default])
  exact ⟨h.1, h.2.2 (by decide)⟩

end Breakout
